import Mathlib

/-!
Verification of `src/assets/dashExtensions_default.js` — a set of six
stateless callback functions (`function0` … `function5`) used by a map
dashboard to style features and build tooltips.

The JavaScript is shallowly embedded: JS scalar values become the inductive
type `JSVal` (numbers as exact rationals, `NaN` as a separate constructor);
`feature.properties` becomes an association list; the caller-owned mutable
`style` and `circleOptions` records become structures, and a function that
mutates one in place returns its post-call state explicitly.  The third-party
`chroma.scale(...).domain([min,max])` color scale is not part of this
repository, so it is modelled from the spec (see `chromaScale`).
-/

set_option autoImplicit false

namespace DashExt

/-- An RGB color with exact rational channels; the result type of the modelled
chroma color scale. -/
structure Color where
  r : ℚ
  g : ℚ
  b : ℚ
  deriving Repr, DecidableEq

/-- A JavaScript scalar value as it occurs in this code: a (non-NaN) number,
`NaN`, a string, `undefined`, or a chroma color object. -/
inductive JSVal where
  | num (q : ℚ)
  | nan
  | str (s : String)
  | undef
  | colorv (c : Color)
  deriving Repr, DecidableEq

/-- Digit run to its value, most significant first. -/
def parseDigits (cs : List Char) : ℕ :=
  cs.foldl (fun acc c => acc * 10 + (c.toNat - 48)) 0

/-- The decimal-literal fragment of JS `ToNumber` on strings: trimmed empty
string is `0`, an optional sign followed by digits and an optional fractional
part is the denoted rational, anything else is `NaN` (`none`).  (Hex, binary
and exponent literals never occur in this repository's data.) -/
def strToNumber (s : String) : Option ℚ :=
  let cs := s.trim.toList
  if cs.isEmpty then some 0 else
  let sb : ℚ × List Char :=
    match cs with
    | '-' :: rest => (-1, rest)
    | '+' :: rest => (1, rest)
    | _ => (1, cs)
  let ip := sb.2.takeWhile Char.isDigit
  let rest := sb.2.dropWhile Char.isDigit
  match rest with
  | [] => if ip.isEmpty then none else some (sb.1 * (parseDigits ip : ℚ))
  | '.' :: fp =>
      if fp.all Char.isDigit && !(ip.isEmpty && fp.isEmpty) then
        some (sb.1 * ((parseDigits ip : ℚ) + (parseDigits fp : ℚ) / (10 : ℚ) ^ fp.length))
      else none
  | _ => none

/-- JS loose (coercive) equality `==` restricted to the value shapes above:
number/number and string/string compare by value, number/string coerces the
string with `ToNumber`, `NaN` equals nothing (itself included), `undefined`
equals only `undefined`.  A chroma color object is a fresh object, never
reference-equal to anything else in scope, so it compares `false`. -/
def looseEq : JSVal → JSVal → Bool
  | JSVal.num a, JSVal.num b => a == b
  | JSVal.num a, JSVal.str s =>
      match strToNumber s with
      | some b => a == b
      | none => false
  | JSVal.str s, JSVal.num a =>
      match strToNumber s with
      | some b => a == b
      | none => false
  | JSVal.str a, JSVal.str b => a == b
  | JSVal.undef, JSVal.undef => true
  | _, _ => false

/-- JS `ToString`, as used for template interpolation and property keys.
Integral numbers print without a decimal point; other rationals use the
embedding's rational rendering (this repository only ever stringifies strings
and integers). -/
def jsToString : JSVal → String
  | JSVal.num q => if q.den = 1 then toString q.num else toString q
  | JSVal.nan => "NaN"
  | JSVal.str s => s
  | JSVal.undef => "undefined"
  | JSVal.colorv _ => "[color]"

/-- A geospatial feature: a read-only mapping of property names to values. -/
structure Feature where
  properties : List (String × JSVal)
  deriving Repr

/-- `feature.properties[k]`: a missing property reads as `undefined`. -/
def Feature.getProp (f : Feature) (k : String) : JSVal :=
  (f.properties.lookup k).getD JSVal.undef

/-- The caller-owned mutable style record: the fill color plus all other
style fields, which these functions never touch. -/
structure Style where
  fillColor : JSVal
  rest : List (String × JSVal)
  deriving Repr, DecidableEq

/-- JS array indexing `l[i]`: out of bounds reads as `undefined`. -/
def jsIndex (l : List JSVal) (i : ℕ) : JSVal :=
  l.getD i JSVal.undef

/-- The body of `function0`'s `for` loop, run over the class list paired with
its indices: every index whose class loosely equals `value` overwrites
`style.fillColor` with `colorscale[i]`; the loop does not break. -/
def applyClasses (value : JSVal) (colorscale : List JSVal) :
    List (ℕ × JSVal) → Style → Style
  | [], style => style
  | (i, c) :: rest, style =>
      applyClasses value colorscale rest
        (if looseEq value c then { style with fillColor := jsIndex colorscale i } else style)

/-- `function0(feature, context)`: destructures `classes`, `colorscale`,
`style`, `colorProp` from `context.hideout`, scans the whole class list, and
on every loose match sets `style.fillColor = colorscale[i]`; returns `style`. -/
def function0 (feature : Feature) (classes colorscale : List JSVal)
    (colorProp : String) (style : Style) : Style :=
  applyClasses (feature.getProp colorProp) colorscale classes.enum style

/-- The index written last by the loop: the last index in `pairs` whose class
loosely equals `value`, if any. -/
def lastMatchIdx (value : JSVal) : List (ℕ × JSVal) → Option ℕ
  | [] => none
  | (i, c) :: rest =>
      match lastMatchIdx value rest with
      | some j => some j
      | none => if looseEq value c then some i else none

/-- Position (from the head) of the last loose match in a plain class list. -/
def lastMatchPos (value : JSVal) : List JSVal → Option ℕ
  | [] => none
  | c :: rest =>
      match lastMatchPos value rest with
      | some j => some (j + 1)
      | none => if looseEq value c then some 0 else none

theorem applyClasses_rest (value : JSVal) (colorscale : List JSVal)
    (pairs : List (ℕ × JSVal)) (style : Style) :
    (applyClasses value colorscale pairs style).rest = style.rest := by
  induction pairs generalizing style with
  | nil => rfl
  | cons p rest ih =>
      obtain ⟨i, c⟩ := p
      simp only [applyClasses]
      rw [ih]
      by_cases h : looseEq value c = true <;> simp [h]

theorem applyClasses_fillColor (value : JSVal) (colorscale : List JSVal)
    (pairs : List (ℕ × JSVal)) (style : Style) :
    (applyClasses value colorscale pairs style).fillColor =
      match lastMatchIdx value pairs with
      | some i => jsIndex colorscale i
      | none => style.fillColor := by
  induction pairs generalizing style with
  | nil => rfl
  | cons p rest ih =>
      obtain ⟨i, c⟩ := p
      simp only [applyClasses, lastMatchIdx]
      rw [ih]
      cases hrest : lastMatchIdx value rest with
      | some j => simp
      | none =>
          by_cases h : looseEq value c = true <;> simp [h]

theorem applyClasses_no_match (value : JSVal) (colorscale : List JSVal)
    (pairs : List (ℕ × JSVal)) (style : Style)
    (h : ∀ p ∈ pairs, looseEq value p.2 = false) :
    applyClasses value colorscale pairs style = style := by
  induction pairs generalizing style with
  | nil => rfl
  | cons p rest ih =>
      obtain ⟨i, c⟩ := p
      have hc : looseEq value c = false := h (i, c) (List.mem_cons_self _ _)
      simp only [applyClasses, hc, Bool.false_eq_true, if_neg, ite_false]
      exact ih _ fun q hq => h q (List.mem_cons_of_mem _ hq)

theorem lastMatchIdx_enumFrom (value : JSVal) (l : List JSVal) (n : ℕ) :
    lastMatchIdx value (l.enumFrom n) = (lastMatchPos value l).map (n + ·) := by
  induction l generalizing n with
  | nil => rfl
  | cons c rest ih =>
      simp only [List.enumFrom, lastMatchIdx, lastMatchPos, ih]
      cases hrest : lastMatchPos value rest with
      | some j =>
          simp only [Option.map_some]
          have : n + 1 + j = n + (j + 1) := by omega
          simp [this]
      | none =>
          by_cases h : looseEq value c = true <;> simp [h]

theorem lastMatchPos_none_of_no_match (value : JSVal) (l : List JSVal)
    (h : ∀ c ∈ l, looseEq value c = false) :
    lastMatchPos value l = none := by
  induction l with
  | nil => rfl
  | cons c rest ih =>
      have hr := ih fun d hd => h d (List.mem_cons_of_mem _ hd)
      have hc := h c (List.mem_cons_self _ _)
      simp [lastMatchPos, hr, hc]

theorem lastMatchPos_of_last_match (value : JSVal) (l : List JSVal) (i : ℕ)
    (hi : i < l.length) (hmatch : looseEq value (l.getD i JSVal.undef) = true)
    (hafter : ∀ j, i < j → j < l.length → looseEq value (l.getD j JSVal.undef) = false) :
    lastMatchPos value l = some i := by
  induction l generalizing i with
  | nil => exact absurd hi (by simp)
  | cons c rest ih =>
      cases i with
      | zero =>
          have hr : lastMatchPos value rest = none := by
            apply lastMatchPos_none_of_no_match
            intro d hd
            obtain ⟨k, hk, rfl⟩ := List.mem_iff_getElem.mp hd
            have := hafter (k + 1) (Nat.succ_pos k) (by simpa using Nat.succ_lt_succ hk)
            simpa [List.getD, List.getElem?_cons_succ, List.getElem?_eq_getElem hk] using this
          have hc : looseEq value c = true := by simpa [List.getD] using hmatch
          simp [lastMatchPos, hr, hc]
      | succ k =>
          have hr : lastMatchPos value rest = some k := by
            apply ih
            · simpa using Nat.lt_of_succ_lt_succ hi
            · simpa [List.getD] using hmatch
            · intro j hj hjlen
              have := hafter (j + 1) (Nat.succ_lt_succ hj) (by simpa using Nat.succ_lt_succ hjlen)
              simpa [List.getD] using this
          simp [lastMatchPos, hr]

theorem lastMatchPos_sound (value : JSVal) (l : List JSVal) (i : ℕ)
    (h : lastMatchPos value l = some i) :
    i < l.length ∧ looseEq value (l.getD i JSVal.undef) = true := by
  induction l generalizing i with
  | nil => exact absurd h (by simp [lastMatchPos])
  | cons c rest ih =>
      simp only [lastMatchPos] at h
      cases hrest : lastMatchPos value rest with
      | some j =>
          rw [hrest] at h
          obtain rfl : j + 1 = i := by simpa using h
          obtain ⟨hlen, hm⟩ := ih j hrest
          exact ⟨by simpa using Nat.succ_lt_succ hlen, by simpa [List.getD] using hm⟩
      | none =>
          rw [hrest] at h
          by_cases hc : looseEq value c = true
          · rw [if_pos hc] at h
            obtain rfl : 0 = i := by simpa using h
            exact ⟨by simp, by simpa [List.getD] using hc⟩
          · rw [if_neg hc] at h
            exact absurd h (by simp)

theorem lastMatchPos_isSome_of_match (value : JSVal) (l : List JSVal) (i : ℕ)
    (hi : i < l.length) (hmatch : looseEq value (l.getD i JSVal.undef) = true) :
    (lastMatchPos value l).isSome = true := by
  induction l generalizing i with
  | nil => exact absurd hi (by simp)
  | cons c rest ih =>
      simp only [lastMatchPos]
      cases hrest : lastMatchPos value rest with
      | some j => simp
      | none =>
          cases i with
          | zero =>
              have hc : looseEq value c = true := by simpa [List.getD] using hmatch
              simp [hc]
          | succ k =>
              have := ih k (by simpa using Nat.lt_of_succ_lt_succ hi)
                (by simpa [List.getD] using hmatch)
              rw [hrest] at this
              exact absurd this (by simp)

/-- Caller-owned mutable circle-marker options: the fill color plus all other
option fields, which these functions never touch. -/
structure CircleOptions where
  fillColor : JSVal
  rest : List (String × JSVal)
  deriving Repr, DecidableEq

/-- A Leaflet circle marker as constructed by `L.circleMarker(latlng, opts)`:
its location and the options it was built from. -/
structure Marker where
  latlng : ℚ × ℚ
  options : CircleOptions
  deriving Repr, DecidableEq

/-- `color_dict[value]`: JS property access coerces the key with `ToString`
and reads `undefined` when the key is absent. -/
def dictGet (d : List (String × JSVal)) (v : JSVal) : JSVal :=
  (d.lookup (jsToString v)).getD JSVal.undef

/-- `function1(feature, latlng, context)`: destructures `colorProp`,
`circleOptions`, `color_dict` from `context.hideout`, assigns
`circleOptions.fillColor = color_dict[value]` in place on the caller's
object, and returns `L.circleMarker(latlng, circleOptions)`.  The second
component is the post-call state of the caller's `circleOptions`. -/
def function1 (feature : Feature) (latlng : ℚ × ℚ) (colorProp : String)
    (circleOptions : CircleOptions) (color_dict : List (String × JSVal)) :
    Marker × CircleOptions :=
  let value := feature.getProp colorProp
  let opts := { circleOptions with fillColor := dictGet color_dict value }
  (⟨latlng, opts⟩, opts)

/-- JS `Number.prototype.toFixed(2)` on an exact rational: sign of the value,
then the magnitude rounded to 2 decimals with ties toward the larger
numerator, printed with a 2-digit fraction. -/
def toFixed2 (q : ℚ) : String :=
  let sgn := if q < 0 then "-" else ""
  let m := (⌊|q| * 100 + 1 / 2⌋).toNat
  sgn ++ toString (m / 100) ++ "." ++ (if m % 100 < 10 then "0" else "") ++ toString (m % 100)

/-- `value.toFixed(2)` on a JS value: defined on numbers (with
`NaN.toFixed(2) = "NaN"`); on a string, `undefined` or an object the method
is missing and the call throws (`none`). -/
def jsToFixed2 : JSVal → Option String
  | JSVal.num q => some (toFixed2 q)
  | JSVal.nan => some "NaN"
  | _ => none

/-- JS `value * k` for numeric `k`: numbers multiply, strings coerce with
`ToNumber`, `NaN`/`undefined`/objects give `NaN`. -/
def jsMul (v : JSVal) (k : ℚ) : JSVal :=
  match v with
  | JSVal.num q => JSVal.num (q * k)
  | JSVal.str s =>
      match strToNumber s with
      | some q => JSVal.num (q * k)
      | none => JSVal.nan
  | _ => JSVal.nan

/-- `function2(feature, layer, context)`: binds a tooltip on the layer.  The
result is the bound template string; `none` models the uncaught `TypeError`
thrown when `.toFixed(2)` is called on a property that is not a number. -/
def function2 (feature : Feature) : Option String :=
  match jsToFixed2 (feature.getProp "mean_velocity"),
        jsToFixed2 (feature.getProp "mp_label_prob") with
  | some mv, some lp =>
      some ("PID: " ++ jsToString (feature.getProp "pid") ++ "<br>\n                "
        ++ "Mean velocity: " ++ mv ++ "mm/yr" ++ "<br>\n                "
        ++ "Label prob: " ++ lp ++ "<br>\n                "
        ++ "Trend class: " ++ jsToString (feature.getProp "trend_class") ++ "<br>\n                "
        ++ "Trend subclass: " ++ jsToString (feature.getProp "trend_subclass") ++ "<br>")
  | _, _ => none

/-- `function3(feature, layer, context)`: binds the aggregate tooltip on the
layer; `none` models the uncaught `TypeError` from `.toFixed(2)` on a
non-number.  The stable proportion is first multiplied by 100, so for it the
multiplication coerces and `.toFixed` only ever sees a number or `NaN`. -/
def function3 (feature : Feature) : Option String :=
  match jsToFixed2 (feature.getProp "mean_velocity"),
        jsToFixed2 (jsMul (feature.getProp "stable_prop") 100),
        jsToFixed2 (feature.getProp "label_prob") with
  | some mv, some sp, some lp =>
      some ("N active MPs: " ++ jsToString (feature.getProp "n_ada_points") ++ "<br>\n                "
        ++ "Mean velocity: " ++ mv ++ "mm/yr" ++ "<br>\n                "
        ++ "Stable prop: " ++ sp ++ "%" ++ "<br>\n                "
        ++ "Avg. label prob: " ++ lp ++ "<br>\n                "
        ++ "ADA major class: " ++ jsToString (feature.getProp "ada_major_class") ++ "<br>\n                "
        ++ "ADA major subclass: " ++ jsToString (feature.getProp "ada_major_subclass") ++ "<br>")
  | _, _, _ => none

/-- Clamp a scale position into the unit interval. -/
def clamp01 (t : ℚ) : ℚ := max 0 (min 1 t)

/-- Linear interpolation between two colors, channelwise. -/
def lerp (a b : Color) (t : ℚ) : Color :=
  ⟨a.r + (b.r - a.r) * t, a.g + (b.g - a.g) * t, a.b + (b.b - a.b) * t⟩

/-- Piecewise-linear evaluation of an equally-spaced stop list at a position
`u ∈ [0, n-1]`, one unit per segment. -/
def scaleEvalAux : List Color → ℚ → Color
  | [], _ => ⟨0, 0, 0⟩
  | [c], _ => c
  | a :: b :: rest, u =>
      if u ≤ 1 then lerp a b u else scaleEvalAux (b :: rest) (u - 1)

/-- Modelled from the spec: the third-party `chroma.scale(colorscale)
.domain([min, max])` color scale, which is not part of this repository.
Per the spec it linearly maps the domain `[min, max]` onto the stop list and
clamps values outside the domain to the nearest endpoint's color. -/
def chromaScale (stops : List Color) (mn mx v : ℚ) : Color :=
  scaleEvalAux stops (clamp01 ((v - mn) / (mx - mn)) * ((stops.length : ℚ) - 1))

/-- Modelled from the spec: applying the chroma scale function `csc` to a raw
property value.  A number evaluates the scale; a numeric string coerces; a
non-numeric input yields an invalid (`NaN`) color, modelled by `JSVal.nan`. -/
def chromaApply (stops : List Color) (mn mx : ℚ) (v : JSVal) : JSVal :=
  match v with
  | JSVal.num q => JSVal.colorv (chromaScale stops mn mx q)
  | JSVal.str s =>
      match strToNumber s with
      | some q => JSVal.colorv (chromaScale stops mn mx q)
      | none => JSVal.nan
  | _ => JSVal.nan

/-- `function4(feature, latlng, context)`: destructures `min`, `max`,
`colorscale`, `circleOptions`, `colorProp` from `context.hideout`, assigns
`circleOptions.fillColor = csc(feature.properties[colorProp])` in place on
the caller's object, and returns `L.circleMarker(latlng, circleOptions)`.
The second component is the post-call state of the caller's `circleOptions`. -/
def function4 (feature : Feature) (latlng : ℚ × ℚ) (min max : ℚ)
    (colorscale : List Color) (circleOptions : CircleOptions) (colorProp : String) :
    Marker × CircleOptions :=
  let opts := { circleOptions with
    fillColor := chromaApply colorscale min max (feature.getProp colorProp) }
  (⟨latlng, opts⟩, opts)

/-- `function5(feature, context)`: destructures `min`, `max`, `colorscale`,
`style`, `colorProp` from `context.hideout`, sets
`style.fillColor = csc(feature.properties[colorProp])` and returns `style`. -/
def function5 (feature : Feature) (min max : ℚ) (colorscale : List Color)
    (style : Style) (colorProp : String) : Style :=
  { style with fillColor := chromaApply colorscale min max (feature.getProp colorProp) }

/-- Shared characterisation of `function0`: the returned fill color is
`colorscale[i]` for the last loosely-matching index `i`, or the pre-call
fill color when nothing matches. -/
theorem function0_fillColor_spec (feature : Feature) (classes colorscale : List JSVal)
    (colorProp : String) (style : Style) :
    (function0 feature classes colorscale colorProp style).fillColor =
      match lastMatchPos (feature.getProp colorProp) classes with
      | some i => jsIndex colorscale i
      | none => style.fillColor := by
  unfold function0
  rw [applyClasses_fillColor, show classes.enum = classes.enumFrom 0 from rfl,
    lastMatchIdx_enumFrom]
  cases lastMatchPos (feature.getProp colorProp) classes <;> simp

/-- Red channel of a fill-color value, for stating monotonicity. -/
def JSVal.chanR : JSVal → ℚ
  | JSVal.colorv c => c.r
  | _ => 0

/-- Green channel of a fill-color value. -/
def JSVal.chanG : JSVal → ℚ
  | JSVal.colorv c => c.g
  | _ => 0

/-- Blue channel of a fill-color value. -/
def JSVal.chanB : JSVal → ℚ
  | JSVal.colorv c => c.b
  | _ => 0

theorem snd_mem_of_mem_enumFrom {α : Type _} (l : List α) (n : ℕ) (p : ℕ × α)
    (h : p ∈ l.enumFrom n) : p.2 ∈ l := by
  induction l generalizing n with
  | nil => simp [List.enumFrom] at h
  | cons a t ih =>
      simp only [List.enumFrom, List.mem_cons] at h
      rcases h with h | h
      · simp [h]
      · exact List.mem_cons_of_mem _ (ih _ h)

/-! ## Claim theorems -/

/-- C1 (counterexample): with `classes = ["A","A"]`, `colorscale =
["red","blue"]` and property value `"A"`, index `0` is the FIRST loose match,
but `function0` leaves the fill color at `colorscale[1] = "blue"`, not
`colorscale[0] = "red"` — the claim as stated is false. -/
theorem function0_first_match_counterexample :
    looseEq ((Feature.mk [("cls", JSVal.str "A")]).getProp "cls")
        (jsIndex [JSVal.str "A", JSVal.str "A"] 0) = true ∧
    (function0 (Feature.mk [("cls", JSVal.str "A")])
        [JSVal.str "A", JSVal.str "A"] [JSVal.str "red", JSVal.str "blue"] "cls"
        (Style.mk JSVal.undef [])).fillColor ≠ jsIndex [JSVal.str "red", JSVal.str "blue"] 0 := by
  decide

/-- C1 (amended): `function0` sets the style's fill color to `colorscale[i]`,
where `i` is the LAST index at which `feature.properties[colorProp]` loosely
equals `classes[i]` — the loop does not break, so a later match overwrites an
earlier one. -/
theorem function0_last_match (feature : Feature) (classes colorscale : List JSVal)
    (colorProp : String) (style : Style) (i : ℕ)
    (hi : i < classes.length)
    (hm : looseEq (feature.getProp colorProp) (classes.getD i JSVal.undef) = true)
    (hlast : ∀ j, i < j → j < classes.length →
      looseEq (feature.getProp colorProp) (classes.getD j JSVal.undef) = false) :
    (function0 feature classes colorscale colorProp style).fillColor = jsIndex colorscale i := by
  rw [function0_fillColor_spec, lastMatchPos_of_last_match _ _ _ hi hm hlast]

/-- C1 (witness): property value `"A"`, `classes = ["B","A"]`, `colorscale =
["red","blue"]`; the last (only) match is index `1` and the resolved fill
color is `"blue"`. -/
theorem function0_last_match_witness :
    (1 < ([JSVal.str "B", JSVal.str "A"] : List JSVal).length ∧
      looseEq ((Feature.mk [("cls", JSVal.str "A")]).getProp "cls")
        (([JSVal.str "B", JSVal.str "A"] : List JSVal).getD 1 JSVal.undef) = true) ∧
    (function0 (Feature.mk [("cls", JSVal.str "A")])
        [JSVal.str "B", JSVal.str "A"] [JSVal.str "red", JSVal.str "blue"] "cls"
        (Style.mk JSVal.undef [])).fillColor = jsIndex [JSVal.str "red", JSVal.str "blue"] 1 :=
  ⟨⟨by decide, by decide⟩,
    function0_last_match (Feature.mk [("cls", JSVal.str "A")])
      [JSVal.str "B", JSVal.str "A"] [JSVal.str "red", JSVal.str "blue"] "cls"
      (Style.mk JSVal.undef []) 1 (by decide) (by decide)
      (fun j h1 h2 => absurd (Nat.lt_of_lt_of_le h1 (Nat.le_of_lt_succ h2)) (lt_irrefl 1))⟩

/-- C3: when `feature.properties[colorProp]` loosely matches no entry of
`classes`, `function0` returns the supplied style object entirely unchanged —
fill color included — with no default and no error. -/
theorem function0_no_match (feature : Feature) (classes colorscale : List JSVal)
    (colorProp : String) (style : Style)
    (h : ∀ c ∈ classes, looseEq (feature.getProp colorProp) c = false) :
    function0 feature classes colorscale colorProp style = style := by
  unfold function0
  apply applyClasses_no_match
  intro p hp
  exact h p.2 (snd_mem_of_mem_enumFrom classes 0 p hp)

/-- C3 (witness): property value `"Z"` matches neither `"A"` nor `"B"`, and
the call returns the style (fill color `"green"`) untouched. -/
theorem function0_no_match_witness :
    (∀ c ∈ ([JSVal.str "A", JSVal.str "B"] : List JSVal),
      looseEq ((Feature.mk [("cls", JSVal.str "Z")]).getProp "cls") c = false) ∧
    function0 (Feature.mk [("cls", JSVal.str "Z")])
        [JSVal.str "A", JSVal.str "B"] [JSVal.str "red", JSVal.str "blue"] "cls"
        (Style.mk (JSVal.str "green") []) = Style.mk (JSVal.str "green") [] :=
  ⟨by decide,
    function0_no_match (Feature.mk [("cls", JSVal.str "Z")])
      [JSVal.str "A", JSVal.str "B"] [JSVal.str "red", JSVal.str "blue"] "cls"
      (Style.mk (JSVal.str "green") []) (by decide)⟩

/-- C4: when `feature.properties[colorProp]` loosely equals `classes[i]` for
exactly one index `i`, `function0` resolves the fill color to `colorscale[i]`;
the scenario `classes = ["A","B"]`, `colorscale = ["red","blue"]`, value
`"B"` → `"blue"` instantiates it (see the witness). -/
theorem function0_unique_match (feature : Feature) (classes colorscale : List JSVal)
    (colorProp : String) (style : Style) (i : ℕ)
    (hi : i < classes.length)
    (hm : looseEq (feature.getProp colorProp) (classes.getD i JSVal.undef) = true)
    (huniq : ∀ j, j < classes.length →
      looseEq (feature.getProp colorProp) (classes.getD j JSVal.undef) = true → j = i) :
    (function0 feature classes colorscale colorProp style).fillColor = jsIndex colorscale i := by
  rw [function0_fillColor_spec, lastMatchPos_of_last_match _ _ _ hi hm]
  intro j hij hj
  by_contra hmatch
  have := huniq j hj (by simpa using hmatch)
  omega

/-- C4 (witness): the spec scenario — `classes = ["A","B"]`, `colorscale =
["red","blue"]`, property value `"B"` matches exactly index `1`, and the
resolved fill color is `"blue"`. -/
theorem function0_unique_match_witness :
    (1 < ([JSVal.str "A", JSVal.str "B"] : List JSVal).length ∧
      looseEq ((Feature.mk [("cls", JSVal.str "B")]).getProp "cls")
        (([JSVal.str "A", JSVal.str "B"] : List JSVal).getD 1 JSVal.undef) = true) ∧
    (function0 (Feature.mk [("cls", JSVal.str "B")])
        [JSVal.str "A", JSVal.str "B"] [JSVal.str "red", JSVal.str "blue"] "cls"
        (Style.mk JSVal.undef [])).fillColor = JSVal.str "blue" :=
  ⟨⟨by decide, by decide⟩,
    function0_unique_match (Feature.mk [("cls", JSVal.str "B")])
      [JSVal.str "A", JSVal.str "B"] [JSVal.str "red", JSVal.str "blue"] "cls"
      (Style.mk JSVal.undef []) 1 (by decide) (by decide)
      (by decide)⟩

/-- C10: when every loosely-matching index lies at or beyond the end of
`colorscale` (and at least one index matches), `function0` writes the
out-of-bounds read `colorscale[i]`, i.e. `undefined`, into the fill color —
it neither leaves the color unchanged nor raises an error. -/
theorem function0_out_of_bounds (feature : Feature) (classes colorscale : List JSVal)
    (colorProp : String) (style : Style)
    (hex : ∃ i, i < classes.length ∧
      looseEq (feature.getProp colorProp) (classes.getD i JSVal.undef) = true)
    (hall : ∀ j, j < classes.length →
      looseEq (feature.getProp colorProp) (classes.getD j JSVal.undef) = true →
      colorscale.length ≤ j) :
    (function0 feature classes colorscale colorProp style).fillColor = JSVal.undef := by
  rw [function0_fillColor_spec]
  obtain ⟨i, hi, hm⟩ := hex
  have hsome := lastMatchPos_isSome_of_match _ _ _ hi hm
  obtain ⟨k, hk⟩ := Option.isSome_iff_exists.mp hsome
  obtain ⟨hklen, hkm⟩ := lastMatchPos_sound _ _ _ hk
  rw [hk]
  simp only [jsIndex]
  exact List.getD_eq_default _ _ (hall k hklen hkm)

/-- C10 (witness): `classes = ["A"]` is longer than `colorscale = []`; value
`"A"` matches only index `0 ≥ 0 = colorscale.length`, and the fill color is
set to `undefined`. -/
theorem function0_out_of_bounds_witness :
    ((∃ i, i < ([JSVal.str "A"] : List JSVal).length ∧
      looseEq ((Feature.mk [("cls", JSVal.str "A")]).getProp "cls")
        (([JSVal.str "A"] : List JSVal).getD i JSVal.undef) = true)) ∧
    (function0 (Feature.mk [("cls", JSVal.str "A")]) [JSVal.str "A"] [] "cls"
        (Style.mk (JSVal.str "green") [])).fillColor = JSVal.undef :=
  ⟨⟨0, by decide, by decide⟩,
    function0_out_of_bounds (Feature.mk [("cls", JSVal.str "A")]) [JSVal.str "A"] [] "cls"
      (Style.mk (JSVal.str "green") []) ⟨0, by decide, by decide⟩
      (fun j _ _ => Nat.zero_le j)⟩

/-- C2 (counterexample): `function1` and `function4` assign
`circleOptions.fillColor` directly on the caller-supplied object, so the
object in the context IS mutated — its post-call state differs from its
pre-call state whenever the computed color differs from the old fill color.
-/
theorem circleOptions_copy_counterexample :
    (function1 (Feature.mk [("cls", JSVal.str "Y")]) (0, 0) "cls"
        (CircleOptions.mk (JSVal.str "old") [])
        [("X", JSVal.str "#111"), ("Y", JSVal.str "#222")]).2 ≠
      CircleOptions.mk (JSVal.str "old") [] ∧
    (function4 (Feature.mk [("v", JSVal.num 5)]) (0, 0) 0 10
        [Color.mk 0 0 0, Color.mk 100 100 100]
        (CircleOptions.mk (JSVal.str "old") []) "v").2 ≠
      CircleOptions.mk (JSVal.str "old") [] := by
  refine ⟨?_, ?_⟩ <;> decide

/-- C2 (amended): `function1` and `function4` configure the new circle marker
with the caller-supplied `circleOptions` object itself, mutated in place: its
fill color is overwritten with the computed color, every other field is left
unchanged, and the marker is constructed from that same mutated object (not
from a copy). -/
theorem circleOptions_mutated_in_place (feature : Feature) (latlng : ℚ × ℚ)
    (colorProp : String) (circleOptions : CircleOptions)
    (color_dict : List (String × JSVal)) (mn mx : ℚ) (colorscale : List Color) :
    (function1 feature latlng colorProp circleOptions color_dict).2 =
      { circleOptions with fillColor := dictGet color_dict (feature.getProp colorProp) } ∧
    (function1 feature latlng colorProp circleOptions color_dict).1 =
      Marker.mk latlng (function1 feature latlng colorProp circleOptions color_dict).2 ∧
    (function4 feature latlng mn mx colorscale circleOptions colorProp).2 =
      { circleOptions with
        fillColor := chromaApply colorscale mn mx (feature.getProp colorProp) } ∧
    (function4 feature latlng mn mx colorscale circleOptions colorProp).1 =
      Marker.mk latlng (function4 feature latlng mn mx colorscale circleOptions colorProp).2 :=
  ⟨rfl, rfl, rfl, rfl⟩

/-- C5: `function1` sets the marker's fill color by direct key lookup
`color_dict[value]` — the association-list lookup of the key, with
`undefined` when the key is absent — not by the coercive linear scan of
`function0`; the spec scenario (`color_dict = {"X":"#111","Y":"#222"}`,
value `"Y"` → `"#222"`) is the closing conjunct. -/
theorem function1_direct_lookup (feature : Feature) (latlng : ℚ × ℚ)
    (colorProp : String) (circleOptions : CircleOptions)
    (color_dict : List (String × JSVal)) :
    (function1 feature latlng colorProp circleOptions color_dict).1.options.fillColor =
      (color_dict.lookup (jsToString (feature.getProp colorProp))).getD JSVal.undef ∧
    (function1 (Feature.mk [("cls", JSVal.str "Y")]) (0, 0) "cls"
        (CircleOptions.mk JSVal.undef [])
        [("X", JSVal.str "#111"), ("Y", JSVal.str "#222")]).1.options.fillColor =
      JSVal.str "#222" :=
  ⟨rfl, by decide⟩

theorem clamp01_nonneg (t : ℚ) : 0 ≤ clamp01 t := le_max_left 0 _

theorem clamp01_le_one (t : ℚ) : clamp01 t ≤ 1 :=
  max_le (by norm_num) (min_le_left 1 t)

theorem clamp01_mono {a b : ℚ} (h : a ≤ b) : clamp01 a ≤ clamp01 b :=
  max_le_max le_rfl (min_le_min le_rfl h)

theorem clamp01_of_nonpos {t : ℚ} (h : t ≤ 0) : clamp01 t = 0 := by
  unfold clamp01
  rw [min_eq_right (le_trans h (by norm_num)), max_eq_left h]

theorem clamp01_of_one_le {t : ℚ} (h : 1 ≤ t) : clamp01 t = 1 := by
  unfold clamp01
  rw [min_eq_left h, max_eq_right (by norm_num)]

theorem clamp01_of_mem {t : ℚ} (h0 : 0 ≤ t) (h1 : t ≤ 1) : clamp01 t = t := by
  unfold clamp01
  rw [min_eq_right h1, max_eq_right h0]

theorem lerp_zero (a b : Color) : lerp a b 0 = a := by
  simp [lerp]

theorem lerp_one (a b : Color) : lerp a b 1 = b := by
  simp only [lerp, mul_one]
  have hr : a.r + (b.r - a.r) = b.r := by ring
  have hg : a.g + (b.g - a.g) = b.g := by ring
  have hb : a.b + (b.b - a.b) = b.b := by ring
  rw [hr, hg, hb]

theorem scaleEvalAux_zero (c : Color) (cs : List Color) :
    scaleEvalAux (c :: cs) 0 = c := by
  cases cs with
  | nil => rfl
  | cons b rest => simp [scaleEvalAux, lerp_zero]

theorem scaleEvalAux_last (stops : List Color) (h : stops ≠ []) :
    scaleEvalAux stops ((stops.length : ℚ) - 1) = stops.getLast h := by
  induction stops with
  | nil => exact absurd rfl h
  | cons a tail ih =>
      cases tail with
      | nil => rfl
      | cons b rest =>
          cases rest with
          | nil =>
              show scaleEvalAux [a, b] ((2 : ℚ) - 1) = b
              norm_num [scaleEvalAux, lerp_one]
          | cons d rest' =>
              have hlen : ((a :: b :: d :: rest').length : ℚ) - 1 =
                  ((b :: d :: rest').length : ℚ) - 1 + 1 := by
                simp only [List.length_cons]
                push_cast
                ring
              have hgt : ¬((a :: b :: d :: rest').length : ℚ) - 1 ≤ 1 := by
                simp only [List.length_cons]
                push_cast
                have : (0 : ℚ) ≤ (rest'.length : ℚ) := Nat.cast_nonneg _
                intro hle
                nlinarith
              show scaleEvalAux (a :: b :: d :: rest') _ = _
              rw [scaleEvalAux, if_neg hgt, hlen, add_sub_cancel_right]
              rw [ih (by simp)]
              exact (List.getLast_cons (by simp)).symm

theorem chromaScale_below (c : Color) (cs : List Color) (mn mx v : ℚ)
    (hdom : mn < mx) (hv : v < mn) :
    chromaScale (c :: cs) mn mx v = c := by
  unfold chromaScale
  have ht : clamp01 ((v - mn) / (mx - mn)) = 0 :=
    clamp01_of_nonpos (le_of_lt (div_neg_of_neg_of_pos (by linarith) (by linarith)))
  rw [ht, zero_mul, scaleEvalAux_zero]

theorem chromaScale_above (stops : List Color) (h : stops ≠ []) (mn mx v : ℚ)
    (hdom : mn < mx) (hv : mx < v) :
    chromaScale stops mn mx v = stops.getLast h := by
  unfold chromaScale
  have ht : clamp01 ((v - mn) / (mx - mn)) = 1 := by
    apply clamp01_of_one_le
    rw [le_div_iff₀ (by linarith)]
    linarith
  rw [ht, one_mul, scaleEvalAux_last stops h]

theorem chromaScale_two (c0 c1 : Color) (mn mx v : ℚ) :
    chromaScale [c0, c1] mn mx v = lerp c0 c1 (clamp01 ((v - mn) / (mx - mn))) := by
  unfold chromaScale
  have hlen : (([c0, c1] : List Color).length : ℚ) - 1 = 1 := by norm_num
  rw [hlen, mul_one, scaleEvalAux, if_pos (clamp01_le_one _)]

/-- C6: for a nonempty stop list and a proper domain `min < max`, a property
value below `min` makes both continuous resolvers (`function4` and
`function5`) produce the color of the `min` endpoint (the first stop), and a
value above `max` the color of the `max` endpoint (the last stop). -/
theorem continuous_clamps_to_endpoints (feature : Feature) (latlng : ℚ × ℚ)
    (mn mx v : ℚ) (c : Color) (cs : List Color) (circleOptions : CircleOptions)
    (style : Style) (colorProp : String)
    (hdom : mn < mx) (hv : feature.getProp colorProp = JSVal.num v) :
    (v < mn →
      (function4 feature latlng mn mx (c :: cs) circleOptions colorProp).1.options.fillColor =
        JSVal.colorv c ∧
      (function5 feature mn mx (c :: cs) style colorProp).fillColor = JSVal.colorv c) ∧
    (mx < v →
      (function4 feature latlng mn mx (c :: cs) circleOptions colorProp).1.options.fillColor =
        JSVal.colorv ((c :: cs).getLast (by simp)) ∧
      (function5 feature mn mx (c :: cs) style colorProp).fillColor =
        JSVal.colorv ((c :: cs).getLast (by simp))) := by
  constructor
  · intro hlt
    have h4 : chromaApply (c :: cs) mn mx (feature.getProp colorProp) =
        JSVal.colorv c := by
      rw [hv, chromaApply, chromaScale_below c cs mn mx v hdom hlt]
    exact ⟨h4, h4⟩
  · intro hgt
    have h4 : chromaApply (c :: cs) mn mx (feature.getProp colorProp) =
        JSVal.colorv ((c :: cs).getLast (by simp)) := by
      rw [hv, chromaApply, chromaScale_above (c :: cs) (by simp) mn mx v hdom hgt]
    exact ⟨h4, h4⟩

/-- C6 (witness): domain `[0, 10]` with stops black and white: the value
`-5 < 0` resolves to the first stop and `15 > 10` to the last, for both
`function4` and `function5`. -/
theorem continuous_clamps_to_endpoints_witness :
    ((0 : ℚ) < 10 ∧
      (Feature.mk [("v", JSVal.num (-5))]).getProp "v" = JSVal.num (-5) ∧
      (Feature.mk [("v", JSVal.num 15)]).getProp "v" = JSVal.num 15) ∧
    (function4 (Feature.mk [("v", JSVal.num (-5))]) (0, 0) 0 10
        [Color.mk 0 0 0, Color.mk 100 100 100]
        (CircleOptions.mk JSVal.undef []) "v").1.options.fillColor =
      JSVal.colorv (Color.mk 0 0 0) ∧
    (function5 (Feature.mk [("v", JSVal.num 15)]) 0 10
        [Color.mk 0 0 0, Color.mk 100 100 100]
        (Style.mk JSVal.undef []) "v").fillColor = JSVal.colorv (Color.mk 100 100 100) :=
  ⟨⟨by norm_num, by decide, by decide⟩,
    ((continuous_clamps_to_endpoints (Feature.mk [("v", JSVal.num (-5))]) (0, 0) 0 10 (-5)
      (Color.mk 0 0 0) [Color.mk 100 100 100] (CircleOptions.mk JSVal.undef [])
      (Style.mk JSVal.undef []) "v" (by norm_num) (by decide)).1 (by norm_num)).1,
    ((continuous_clamps_to_endpoints (Feature.mk [("v", JSVal.num 15)]) (0, 0) 0 10 15
      (Color.mk 0 0 0) [Color.mk 100 100 100] (CircleOptions.mk JSVal.undef [])
      (Style.mk JSVal.undef []) "v" (by norm_num) (by decide)).2 (by norm_num)).2⟩

theorem lerp_channel_mono {x0 x1 tv tw : ℚ} (ht : tv ≤ tw) (h : x0 ≤ x1) :
    x0 + (x1 - x0) * tv ≤ x0 + (x1 - x0) * tw := by
  have := mul_le_mul_of_nonneg_left ht (sub_nonneg.mpr h)
  linarith

theorem lerp_channel_anti {x0 x1 tv tw : ℚ} (ht : tv ≤ tw) (h : x1 ≤ x0) :
    x0 + (x1 - x0) * tw ≤ x0 + (x1 - x0) * tv := by
  have := mul_le_mul_of_nonneg_left ht (sub_nonneg.mpr h)
  linarith

theorem function5_fillColor_two_stop (f : Feature) (mn mx v : ℚ) (c0 c1 : Color)
    (st : Style) (p : String) (hv : f.getProp p = JSVal.num v) :
    (function5 f mn mx [c0, c1] st p).fillColor =
      JSVal.colorv (lerp c0 c1 (clamp01 ((v - mn) / (mx - mn)))) := by
  show chromaApply [c0, c1] mn mx (f.getProp p) = _
  rw [hv]
  show JSVal.colorv (chromaScale [c0, c1] mn mx v) = _
  rw [chromaScale_two]

/-- C7: for a two-stop scale over a proper domain `min < max`, `function5`'s
output color is exactly the corresponding stop color at `v = min` and
`v = max`, and for `min ≤ v ≤ w ≤ max` every channel moves monotonically
from the first stop's channel toward the second stop's (nondecreasing when
the second stop's channel is larger, nonincreasing when smaller). -/
theorem function5_two_stop_monotone (fv fw : Feature) (mn mx v w : ℚ)
    (c0 c1 : Color) (st1 st2 : Style) (p : String)
    (hdom : mn < mx)
    (hv : fv.getProp p = JSVal.num v) (hw : fw.getProp p = JSVal.num w)
    (_hmv : mn ≤ v) (hvw : v ≤ w) (_hwx : w ≤ mx) :
    (v = mn → (function5 fv mn mx [c0, c1] st1 p).fillColor = JSVal.colorv c0) ∧
    (w = mx → (function5 fw mn mx [c0, c1] st2 p).fillColor = JSVal.colorv c1) ∧
    (c0.r ≤ c1.r →
      JSVal.chanR (function5 fv mn mx [c0, c1] st1 p).fillColor ≤
        JSVal.chanR (function5 fw mn mx [c0, c1] st2 p).fillColor) ∧
    (c1.r ≤ c0.r →
      JSVal.chanR (function5 fw mn mx [c0, c1] st2 p).fillColor ≤
        JSVal.chanR (function5 fv mn mx [c0, c1] st1 p).fillColor) ∧
    (c0.g ≤ c1.g →
      JSVal.chanG (function5 fv mn mx [c0, c1] st1 p).fillColor ≤
        JSVal.chanG (function5 fw mn mx [c0, c1] st2 p).fillColor) ∧
    (c1.g ≤ c0.g →
      JSVal.chanG (function5 fw mn mx [c0, c1] st2 p).fillColor ≤
        JSVal.chanG (function5 fv mn mx [c0, c1] st1 p).fillColor) ∧
    (c0.b ≤ c1.b →
      JSVal.chanB (function5 fv mn mx [c0, c1] st1 p).fillColor ≤
        JSVal.chanB (function5 fw mn mx [c0, c1] st2 p).fillColor) ∧
    (c1.b ≤ c0.b →
      JSVal.chanB (function5 fw mn mx [c0, c1] st2 p).fillColor ≤
        JSVal.chanB (function5 fv mn mx [c0, c1] st1 p).fillColor) := by
  have ev := function5_fillColor_two_stop fv mn mx v c0 c1 st1 p hv
  have ew := function5_fillColor_two_stop fw mn mx w c0 c1 st2 p hw
  have ht : clamp01 ((v - mn) / (mx - mn)) ≤ clamp01 ((w - mn) / (mx - mn)) := by
    apply clamp01_mono
    gcongr
    linarith
  refine ⟨?_, ?_, ?_, ?_, ?_, ?_, ?_, ?_⟩
  · intro hveq
    rw [ev, hveq, sub_self, zero_div, clamp01_of_nonpos le_rfl, lerp_zero]
  · intro hweq
    rw [ew, hweq, div_self (by linarith : mx - mn ≠ 0), clamp01_of_one_le le_rfl, lerp_one]
  · intro h
    rw [ev, ew]
    exact lerp_channel_mono ht h
  · intro h
    rw [ev, ew]
    exact lerp_channel_anti ht h
  · intro h
    rw [ev, ew]
    exact lerp_channel_mono ht h
  · intro h
    rw [ev, ew]
    exact lerp_channel_anti ht h
  · intro h
    rw [ev, ew]
    exact lerp_channel_mono ht h
  · intro h
    rw [ev, ew]
    exact lerp_channel_anti ht h

/-- C7 (witness): stops `(0,10,5)` and `(10,0,5)` over the domain `[0, 10]`
with values `v = 0`, `w = 10`: the endpoints produce the stop colors exactly
and the red channel is nondecreasing from `v` to `w`. -/
theorem function5_two_stop_monotone_witness :
    ((0 : ℚ) < 10 ∧
      (Feature.mk [("v", JSVal.num 0)]).getProp "v" = JSVal.num 0 ∧
      (Feature.mk [("v", JSVal.num 10)]).getProp "v" = JSVal.num 10 ∧
      (0 : ℚ) ≤ 0 ∧ (0 : ℚ) ≤ 10 ∧ (10 : ℚ) ≤ 10) ∧
    (function5 (Feature.mk [("v", JSVal.num 0)]) 0 10 [Color.mk 0 10 5, Color.mk 10 0 5]
        (Style.mk JSVal.undef []) "v").fillColor = JSVal.colorv (Color.mk 0 10 5) ∧
    (function5 (Feature.mk [("v", JSVal.num 10)]) 0 10 [Color.mk 0 10 5, Color.mk 10 0 5]
        (Style.mk JSVal.undef []) "v").fillColor = JSVal.colorv (Color.mk 10 0 5) ∧
    JSVal.chanR (function5 (Feature.mk [("v", JSVal.num 0)]) 0 10
        [Color.mk 0 10 5, Color.mk 10 0 5] (Style.mk JSVal.undef []) "v").fillColor ≤
      JSVal.chanR (function5 (Feature.mk [("v", JSVal.num 10)]) 0 10
        [Color.mk 0 10 5, Color.mk 10 0 5] (Style.mk JSVal.undef []) "v").fillColor := by
  have h := function5_two_stop_monotone (Feature.mk [("v", JSVal.num 0)])
    (Feature.mk [("v", JSVal.num 10)]) 0 10 0 10 (Color.mk 0 10 5) (Color.mk 10 0 5)
    (Style.mk JSVal.undef []) (Style.mk JSVal.undef []) "v"
    (by norm_num) (by decide) (by decide) (by norm_num) (by norm_num) (by norm_num)
  exact ⟨⟨by norm_num, by decide, by decide, by norm_num, by norm_num, by norm_num⟩,
    h.1 rfl, h.2.1 rfl, h.2.2.1 (by norm_num)⟩

theorem toFixed2_eval (q : ℚ) (n : ℕ) (h0 : ¬q < 0)
    (hfl : ⌊|q| * 100 + 1 / 2⌋ = (n : ℤ)) :
    toFixed2 q =
      toString (n / 100) ++ "." ++ (if n % 100 < 10 then "0" else "") ++ toString (n % 100) := by
  unfold toFixed2
  rw [if_neg h0, hfl]
  simp

theorem substring_of_decomp (x s pre post : String)
    (h : s = pre ++ x ++ post) : x.data <:+: s.data := by
  subst h
  exact ⟨pre.data, post.data, by simp [String.data_append]⟩

/-- C8: for a point feature whose `mean_velocity` and `mp_label_prob` are
numbers, `function2` binds a tooltip whose text contains the point
identifier, the mean velocity to 2 decimal places followed by `mm/yr`, the
label probability to 2 decimal places, the trend class and the trend
subclass. -/
theorem function2_tooltip (f : Feature) (mv lp : ℚ)
    (hmv : f.getProp "mean_velocity" = JSVal.num mv)
    (hlp : f.getProp "mp_label_prob" = JSVal.num lp) :
    ∃ s, function2 f = some s
      ∧ ("PID: " ++ jsToString (f.getProp "pid")).data <:+: s.data
      ∧ (toFixed2 mv ++ "mm/yr").data <:+: s.data
      ∧ ("Label prob: " ++ toFixed2 lp).data <:+: s.data
      ∧ ("Trend class: " ++ jsToString (f.getProp "trend_class")).data <:+: s.data
      ∧ ("Trend subclass: " ++ jsToString (f.getProp "trend_subclass")).data <:+: s.data := by
  refine ⟨"PID: " ++ jsToString (f.getProp "pid") ++ "<br>\n                "
      ++ "Mean velocity: " ++ toFixed2 mv ++ "mm/yr" ++ "<br>\n                "
      ++ "Label prob: " ++ toFixed2 lp ++ "<br>\n                "
      ++ "Trend class: " ++ jsToString (f.getProp "trend_class") ++ "<br>\n                "
      ++ "Trend subclass: " ++ jsToString (f.getProp "trend_subclass") ++ "<br>",
    ?_, ?_, ?_, ?_, ?_, ?_⟩
  · rw [function2, hmv, hlp]
    simp only [jsToFixed2, Option.some.injEq, String.append_assoc]
  · exact ⟨[], ("<br>\n                " ++ "Mean velocity: " ++ toFixed2 mv ++ "mm/yr"
      ++ "<br>\n                " ++ "Label prob: " ++ toFixed2 lp ++ "<br>\n                "
      ++ "Trend class: " ++ jsToString (f.getProp "trend_class") ++ "<br>\n                "
      ++ "Trend subclass: " ++ jsToString (f.getProp "trend_subclass") ++ "<br>").data,
      by simp [String.data_append]⟩
  · exact substring_of_decomp _ _
      ("PID: " ++ jsToString (f.getProp "pid") ++ "<br>\n                "
        ++ "Mean velocity: ")
      ("<br>\n                "
        ++ "Label prob: " ++ toFixed2 lp ++ "<br>\n                "
        ++ "Trend class: " ++ jsToString (f.getProp "trend_class") ++ "<br>\n                "
        ++ "Trend subclass: " ++ jsToString (f.getProp "trend_subclass") ++ "<br>")
      (by simp only [String.append_assoc])
  · exact substring_of_decomp _ _
      ("PID: " ++ jsToString (f.getProp "pid") ++ "<br>\n                "
        ++ "Mean velocity: " ++ toFixed2 mv ++ "mm/yr" ++ "<br>\n                ")
      ("<br>\n                "
        ++ "Trend class: " ++ jsToString (f.getProp "trend_class") ++ "<br>\n                "
        ++ "Trend subclass: " ++ jsToString (f.getProp "trend_subclass") ++ "<br>")
      (by simp only [String.append_assoc])
  · exact substring_of_decomp _ _
      ("PID: " ++ jsToString (f.getProp "pid") ++ "<br>\n                "
        ++ "Mean velocity: " ++ toFixed2 mv ++ "mm/yr" ++ "<br>\n                "
        ++ "Label prob: " ++ toFixed2 lp ++ "<br>\n                ")
      ("<br>\n                "
        ++ "Trend subclass: " ++ jsToString (f.getProp "trend_subclass") ++ "<br>")
      (by simp only [String.append_assoc])
  · exact substring_of_decomp _ _
      ("PID: " ++ jsToString (f.getProp "pid") ++ "<br>\n                "
        ++ "Mean velocity: " ++ toFixed2 mv ++ "mm/yr" ++ "<br>\n                "
        ++ "Label prob: " ++ toFixed2 lp ++ "<br>\n                "
        ++ "Trend class: " ++ jsToString (f.getProp "trend_class") ++ "<br>\n                ")
      ("<br>")
      (by simp only [String.append_assoc])

/-- C8 (witness): the spec scenario — a point feature with
`mean_velocity = 3.456` produces a tooltip containing `"3.46mm/yr"`. -/
theorem function2_tooltip_witness :
    ((Feature.mk [("pid", JSVal.str "p1"), ("mean_velocity", JSVal.num (3456 / 1000)),
        ("mp_label_prob", JSVal.num (9 / 10)), ("trend_class", JSVal.str "tc"),
        ("trend_subclass", JSVal.str "ts")]).getProp "mean_velocity" =
          JSVal.num (3456 / 1000) ∧
      (Feature.mk [("pid", JSVal.str "p1"), ("mean_velocity", JSVal.num (3456 / 1000)),
        ("mp_label_prob", JSVal.num (9 / 10)), ("trend_class", JSVal.str "tc"),
        ("trend_subclass", JSVal.str "ts")]).getProp "mp_label_prob" = JSVal.num (9 / 10)) ∧
    ∃ s, function2 (Feature.mk [("pid", JSVal.str "p1"),
        ("mean_velocity", JSVal.num (3456 / 1000)), ("mp_label_prob", JSVal.num (9 / 10)),
        ("trend_class", JSVal.str "tc"), ("trend_subclass", JSVal.str "ts")]) = some s ∧
      ("3.46mm/yr" : String).data <:+: s.data := by
  obtain ⟨s, hs, _, hmm, _, _, _⟩ := function2_tooltip
    (Feature.mk [("pid", JSVal.str "p1"), ("mean_velocity", JSVal.num (3456 / 1000)),
      ("mp_label_prob", JSVal.num (9 / 10)), ("trend_class", JSVal.str "tc"),
      ("trend_subclass", JSVal.str "ts")]) (3456 / 1000) (9 / 10) rfl rfl
  have h346 : toFixed2 (3456 / 1000 : ℚ) = "3.46" := by
    rw [toFixed2_eval (3456 / 1000) 346 (by norm_num)
      (by rw [abs_of_nonneg (by norm_num : (0 : ℚ) ≤ 3456 / 1000)]; norm_num)]
    decide
  have heq : (toFixed2 (3456 / 1000 : ℚ) ++ "mm/yr") = "3.46mm/yr" := by rw [h346]; decide
  exact ⟨⟨rfl, rfl⟩, s, hs, heq ▸ hmm⟩

/-- C9: for an aggregate feature whose `mean_velocity`, `stable_prop` and
`label_prob` are numbers, `function3` binds a tooltip whose text renders the
stable proportion as the property value multiplied by 100, formatted to 2
decimal places and followed by a `%` sign. -/
theorem function3_tooltip (f : Feature) (mv sp lp : ℚ)
    (hmv : f.getProp "mean_velocity" = JSVal.num mv)
    (hsp : f.getProp "stable_prop" = JSVal.num sp)
    (hlp : f.getProp "label_prob" = JSVal.num lp) :
    ∃ s, function3 f = some s
      ∧ (toFixed2 (sp * 100) ++ "%").data <:+: s.data := by
  refine ⟨"N active MPs: " ++ jsToString (f.getProp "n_ada_points") ++ "<br>\n                "
      ++ "Mean velocity: " ++ toFixed2 mv ++ "mm/yr" ++ "<br>\n                "
      ++ "Stable prop: " ++ toFixed2 (sp * 100) ++ "%" ++ "<br>\n                "
      ++ "Avg. label prob: " ++ toFixed2 lp ++ "<br>\n                "
      ++ "ADA major class: " ++ jsToString (f.getProp "ada_major_class") ++ "<br>\n                "
      ++ "ADA major subclass: " ++ jsToString (f.getProp "ada_major_subclass") ++ "<br>",
    ?_, ?_⟩
  · rw [function3, hmv, hsp, hlp]
    simp only [jsMul, jsToFixed2, Option.some.injEq, String.append_assoc]
  · exact substring_of_decomp _ _
      ("N active MPs: " ++ jsToString (f.getProp "n_ada_points") ++ "<br>\n                "
        ++ "Mean velocity: " ++ toFixed2 mv ++ "mm/yr" ++ "<br>\n                "
        ++ "Stable prop: ")
      ("<br>\n                "
        ++ "Avg. label prob: " ++ toFixed2 lp ++ "<br>\n                "
        ++ "ADA major class: " ++ jsToString (f.getProp "ada_major_class") ++ "<br>\n                "
        ++ "ADA major subclass: " ++ jsToString (f.getProp "ada_major_subclass") ++ "<br>")
      (by simp only [String.append_assoc])

/-- C9 (witness): the spec scenario — an aggregate feature with
`stable_prop = 0.5` produces a tooltip containing `"50.00%"`. -/
theorem function3_tooltip_witness :
    ((Feature.mk [("n_ada_points", JSVal.num 7), ("mean_velocity", JSVal.num 1),
        ("stable_prop", JSVal.num (1 / 2)), ("label_prob", JSVal.num (3 / 4)),
        ("ada_major_class", JSVal.str "mc"), ("ada_major_subclass", JSVal.str "ms")]).getProp
          "stable_prop" = JSVal.num (1 / 2)) ∧
    ∃ s, function3 (Feature.mk [("n_ada_points", JSVal.num 7), ("mean_velocity", JSVal.num 1),
        ("stable_prop", JSVal.num (1 / 2)), ("label_prob", JSVal.num (3 / 4)),
        ("ada_major_class", JSVal.str "mc"), ("ada_major_subclass", JSVal.str "ms")]) = some s ∧
      ("50.00%" : String).data <:+: s.data := by
  obtain ⟨s, hs, hsp⟩ := function3_tooltip
    (Feature.mk [("n_ada_points", JSVal.num 7), ("mean_velocity", JSVal.num 1),
      ("stable_prop", JSVal.num (1 / 2)), ("label_prob", JSVal.num (3 / 4)),
      ("ada_major_class", JSVal.str "mc"), ("ada_major_subclass", JSVal.str "ms")])
    1 (1 / 2) (3 / 4) rfl rfl rfl
  have h50 : toFixed2 ((1 / 2 : ℚ) * 100) = "50.00" := by
    rw [show ((1 / 2 : ℚ) * 100) = 50 by norm_num]
    rw [toFixed2_eval 50 5000 (by norm_num)
      (by rw [abs_of_nonneg (by norm_num : (0 : ℚ) ≤ 50)]; norm_num)]
    decide
  have heq : (toFixed2 ((1 / 2 : ℚ) * 100) ++ "%") = "50.00%" := by rw [h50]; decide
  exact ⟨rfl, s, hs, heq ▸ hsp⟩

end DashExt
